import Mathlib

/-!
Verification of the grant budget calculator (`budget.py`).

The source's arithmetic is embedded over `ℚ` (exact rationals standing for
the program's real-number arithmetic).  Python strings are embedded as
`List Char`; the parameter dictionary is embedded as a lookup function
`List Char → Option (List Char)` updated by assignment.
-/

namespace Budget

/-- Constant `GRAD_SUMMER_FRACTION = 0.25` from the source. -/
def GRAD_SUMMER_FRACTION : ℚ := 1 / 4

/-- Constant `SUBAWARD_INDIRECT_CAP = 25000` from the source. -/
def SUBAWARD_INDIRECT_CAP : ℚ := 25000

/-- The arguments of `calculate_budget`: year-1 values of all salary/fee
quantities, the per-year subaward list, and the four rates. -/
structure BudgetInput where
  number_years : ℕ
  faculty_salary : ℚ
  grad_salary : ℚ
  grad_fees : ℚ
  grad_ins : ℚ
  undergrad_salary : ℚ
  postdoc_salary : ℚ
  postdoc_health : ℚ
  travel : ℚ
  pub_costs : ℚ
  subaward : List ℚ
  indirect_rate : ℚ
  fringe_rate : ℚ
  fulltime_fringe : ℚ
  inflation : ℚ

/-- The six local variables of `calculate_budget` that the loop multiplies by
`(1 + inflation)` at the end of each iteration (source lines 100-105). -/
structure LoopState where
  faculty_salary : ℚ
  grad_salary : ℚ
  postdoc_salary : ℚ
  grad_fees : ℚ
  grad_ins : ℚ
  undergrad_salary : ℚ
deriving DecidableEq

/-- The loop state on entry to `calculate_budget`: the year-1 argument values. -/
def initState (b : BudgetInput) : LoopState :=
  { faculty_salary := b.faculty_salary
    grad_salary := b.grad_salary
    postdoc_salary := b.postdoc_salary
    grad_fees := b.grad_fees
    grad_ins := b.grad_ins
    undergrad_salary := b.undergrad_salary }

/-- One pass of the "Inflate for next year" block (source lines 100-105). -/
def inflateState (r : ℚ) (s : LoopState) : LoopState :=
  { faculty_salary := s.faculty_salary * (1 + r)
    grad_salary := s.grad_salary * (1 + r)
    postdoc_salary := s.postdoc_salary * (1 + r)
    grad_fees := s.grad_fees * (1 + r)
    grad_ins := s.grad_ins * (1 + r)
    undergrad_salary := s.undergrad_salary * (1 + r) }

/-- The loop state at the start of iteration `y` (0-indexed): the inflation
step has run `y` times. -/
def loopState (b : BudgetInput) : ℕ → LoopState
  | 0 => initState b
  | y + 1 => inflateState b.inflation (loopState b y)

/-- Value `subaward[year]` (source line 69 etc.); total functions are used for list
indexing, with default 0 never reached when `len(subaward) == number_years`. -/
def subAt (b : BudgetInput) (y : ℕ) : ℚ :=
  b.subaward.getD y 0

/-- Value `fringe` as computed at the top of iteration `y` (source lines 64-65). -/
def fringeAt (b : BudgetInput) (y : ℕ) : ℚ :=
  (GRAD_SUMMER_FRACTION * (loopState b y).grad_salary + (loopState b y).undergrad_salary
      + (loopState b y).faculty_salary) * b.fringe_rate
    + b.fulltime_fringe * (loopState b y).postdoc_salary

/-- Value `tdc[year]` (source lines 67-69). -/
def tdcAt (b : BudgetInput) (y : ℕ) : ℚ :=
  (loopState b y).faculty_salary + (loopState b y).grad_salary + (loopState b y).grad_fees
    + (loopState b y).grad_ins + (loopState b y).postdoc_salary
    + (loopState b y).undergrad_salary + b.travel + b.pub_costs
    + fringeAt b y + b.postdoc_health + subAt b y

/-- Value `mtdc[year]` (source line 71). -/
def mtdcAt (b : BudgetInput) (y : ℕ) : ℚ :=
  tdcAt b y - (loopState b y).grad_fees - (loopState b y).grad_ins - subAt b y

/-- Value `subaward_mtdc` (source line 76). -/
def subawardMtdcAt (b : BudgetInput) (y : ℕ) : ℚ :=
  min (subAt b y) SUBAWARD_INDIRECT_CAP

/-- Value `indirect[year]` after the addition on line 77 (source lines 73-77). -/
def indirectAt (b : BudgetInput) (y : ℕ) : ℚ :=
  b.indirect_rate * mtdcAt b y + b.indirect_rate * subawardMtdcAt b y

/-- The per-year detail dict appended on source lines 79-97. -/
structure YearDetail where
  year : ℕ
  faculty_salary : ℚ
  faculty_fringe : ℚ
  grad_salary : ℚ
  grad_fringe : ℚ
  postdoc_salary : ℚ
  postdoc_fringe : ℚ
  total_postdoc : ℚ
  undergrad_salary : ℚ
  total_fringe : ℚ
  grad_tuition_health : ℚ
  travel : ℚ
  pub_costs : ℚ
  subaward : ℚ
  subaward_mtdc : ℚ
  mtdc : ℚ
  indirect : ℚ
deriving DecidableEq, Inhabited

/-- The detail record built during iteration `y` (source lines 79-97). -/
def detailAt (b : BudgetInput) (y : ℕ) : YearDetail :=
  { year := y + 1
    faculty_salary := (loopState b y).faculty_salary
    faculty_fringe := (loopState b y).faculty_salary * b.fringe_rate
    grad_salary := (loopState b y).grad_salary
    grad_fringe := GRAD_SUMMER_FRACTION * (loopState b y).grad_salary * b.fringe_rate
    postdoc_salary := (loopState b y).postdoc_salary
    postdoc_fringe := (loopState b y).postdoc_salary * b.fulltime_fringe
    total_postdoc := (1 + b.fulltime_fringe) * (loopState b y).postdoc_salary + b.postdoc_health
    undergrad_salary := (loopState b y).undergrad_salary
    total_fringe := fringeAt b y
    grad_tuition_health := (loopState b y).grad_fees + (loopState b y).grad_ins
    travel := b.travel
    pub_costs := b.pub_costs
    subaward := subAt b y
    subaward_mtdc := subawardMtdcAt b y
    mtdc := mtdcAt b y
    indirect := indirectAt b y }

/-- The dict returned by `calculate_budget` (source line 109). -/
structure BudgetResult where
  tdc : List ℚ
  mtdc : List ℚ
  indirect : List ℚ
  yearly : List ℚ
  details : List YearDetail

/-- Function `calculate_budget` (source lines 45-109), with the stateful year loop
rendered as maps over `List.range number_years` of the per-iteration values;
`yearly` is built as on source line 107. -/
def calculate_budget (b : BudgetInput) : BudgetResult :=
  { tdc := (List.range b.number_years).map (tdcAt b)
    mtdc := (List.range b.number_years).map (mtdcAt b)
    indirect := (List.range b.number_years).map (indirectAt b)
    yearly := (List.range b.number_years).map (fun y => tdcAt b y + indirectAt b y)
    details := (List.range b.number_years).map (detailAt b) }

/-- Indexing a map over `List.range`. -/
theorem getD_map_range {α : Type} (f : ℕ → α) (d : α) {y n : ℕ} (hy : y < n) :
    ((List.range n).map f).getD y d = f y := by
  rw [List.getD_eq_getElem?_getD, List.getElem?_map, List.getElem?_range hy]
  rfl

/-- Closed form of the loop state: after `k` inflation steps every tracked
quantity is its year-1 value times `(1 + inflation) ^ k`. -/
theorem loopState_eq (b : BudgetInput) (k : ℕ) :
    loopState b k =
      { faculty_salary := b.faculty_salary * (1 + b.inflation) ^ k
        grad_salary := b.grad_salary * (1 + b.inflation) ^ k
        postdoc_salary := b.postdoc_salary * (1 + b.inflation) ^ k
        grad_fees := b.grad_fees * (1 + b.inflation) ^ k
        grad_ins := b.grad_ins * (1 + b.inflation) ^ k
        undergrad_salary := b.undergrad_salary * (1 + b.inflation) ^ k } := by
  induction k with
  | zero => simp [loopState, initState]
  | succ k ih => simp [loopState, ih, inflateState, pow_succ, mul_assoc]

/-- A concrete two-year input used to instantiate the universally quantified
theorems: one subaward above the 25000 cap and one below it. -/
def sampleInput : BudgetInput :=
  { number_years := 2
    faculty_salary := 100
    grad_salary := 40
    grad_fees := 12
    grad_ins := 3
    undergrad_salary := 10
    postdoc_salary := 50
    postdoc_health := 5
    travel := 7
    pub_costs := 2
    subaward := [30000, 1000]
    indirect_rate := 1 / 2
    fringe_rate := 1 / 10
    fulltime_fringe := 1 / 4
    inflation := 1 / 10 }

/-- The sample input with zero inflation. -/
def zeroInflInput : BudgetInput :=
  { sampleInput with inflation := 0 }

/-- The sample input restricted to a single year. -/
def oneYearInput : BudgetInput :=
  { sampleInput with number_years := 1, subaward := [500] }

/-- C1: for every valid input and every year `y`, the total direct cost
`tdc[y]` equals facultySalary + gradSalary + gradFees + gradInsurance +
postdocSalary + undergradSalary + travel + pubCosts + totalFringe +
postdocHealth + subaward[y], with the salary/fee terms at year `y`'s inflated
values, where totalFringe = (0.25 * gradSalary + undergradSalary +
facultySalary) * fringeRate + fulltimeFringeRate * postdocSalary. -/
theorem tdc_formula (b : BudgetInput) (h1 : 1 ≤ b.number_years)
    (h2 : b.subaward.length = b.number_years) (y : ℕ) (hy : y < b.number_years) :
    (calculate_budget b).tdc.getD y 0 =
        (loopState b y).faculty_salary + (loopState b y).grad_salary
          + (loopState b y).grad_fees + (loopState b y).grad_ins
          + (loopState b y).postdoc_salary + (loopState b y).undergrad_salary
          + b.travel + b.pub_costs + fringeAt b y + b.postdoc_health
          + b.subaward.getD y 0
      ∧ fringeAt b y =
        (GRAD_SUMMER_FRACTION * (loopState b y).grad_salary
              + (loopState b y).undergrad_salary + (loopState b y).faculty_salary)
            * b.fringe_rate
          + b.fulltime_fringe * (loopState b y).postdoc_salary := by
  constructor
  · simp only [calculate_budget]
    rw [getD_map_range _ _ hy]
    rfl
  · rfl

theorem tdc_formula_witness :
    1 ≤ sampleInput.number_years
      ∧ sampleInput.subaward.length = sampleInput.number_years
      ∧ (1 : ℕ) < sampleInput.number_years
      ∧ ((calculate_budget sampleInput).tdc.getD 1 0 =
            (loopState sampleInput 1).faculty_salary + (loopState sampleInput 1).grad_salary
              + (loopState sampleInput 1).grad_fees + (loopState sampleInput 1).grad_ins
              + (loopState sampleInput 1).postdoc_salary
              + (loopState sampleInput 1).undergrad_salary
              + sampleInput.travel + sampleInput.pub_costs + fringeAt sampleInput 1
              + sampleInput.postdoc_health + sampleInput.subaward.getD 1 0
          ∧ fringeAt sampleInput 1 =
            (GRAD_SUMMER_FRACTION * (loopState sampleInput 1).grad_salary
                  + (loopState sampleInput 1).undergrad_salary
                  + (loopState sampleInput 1).faculty_salary)
                * sampleInput.fringe_rate
              + sampleInput.fulltime_fringe * (loopState sampleInput 1).postdoc_salary) :=
  ⟨by decide, by decide, by decide,
    tdc_formula sampleInput (by decide) (by decide) 1 (by decide)⟩

/-- C2: for every valid input and year `y`, the indirect cost equals
indirectRate * mtdc[y] + indirectRate * min(subaward[y], 25000); for
subaward[y] ≤ 25000 the subaward indirect base equals subaward[y] exactly,
and for subaward[y] > 25000 it equals exactly 25000. -/
theorem indirect_formula (b : BudgetInput) (h1 : 1 ≤ b.number_years)
    (h2 : b.subaward.length = b.number_years) (y : ℕ) (hy : y < b.number_years) :
    (calculate_budget b).indirect.getD y 0 =
        b.indirect_rate * (calculate_budget b).mtdc.getD y 0
          + b.indirect_rate * min (b.subaward.getD y 0) SUBAWARD_INDIRECT_CAP
      ∧ (b.subaward.getD y 0 ≤ SUBAWARD_INDIRECT_CAP →
          subawardMtdcAt b y = b.subaward.getD y 0)
      ∧ (SUBAWARD_INDIRECT_CAP < b.subaward.getD y 0 →
          subawardMtdcAt b y = SUBAWARD_INDIRECT_CAP)
      ∧ SUBAWARD_INDIRECT_CAP = 25000 := by
  refine ⟨?_, ?_, ?_, rfl⟩
  · simp only [calculate_budget]
    rw [getD_map_range _ _ hy, getD_map_range _ _ hy]
    rfl
  · intro h
    simpa [subawardMtdcAt, subAt] using min_eq_left h
  · intro h
    simpa [subawardMtdcAt, subAt] using min_eq_right h.le

theorem indirect_formula_witness :
    1 ≤ sampleInput.number_years
      ∧ sampleInput.subaward.length = sampleInput.number_years
      ∧ sampleInput.subaward.getD 1 0 ≤ SUBAWARD_INDIRECT_CAP
      ∧ SUBAWARD_INDIRECT_CAP < sampleInput.subaward.getD 0 0
      ∧ subawardMtdcAt sampleInput 1 = sampleInput.subaward.getD 1 0
      ∧ subawardMtdcAt sampleInput 0 = SUBAWARD_INDIRECT_CAP
      ∧ (calculate_budget sampleInput).indirect.getD 0 0 =
          sampleInput.indirect_rate * (calculate_budget sampleInput).mtdc.getD 0 0
            + sampleInput.indirect_rate
              * min (sampleInput.subaward.getD 0 0) SUBAWARD_INDIRECT_CAP :=
  ⟨by decide, by decide, by decide, by decide,
    (indirect_formula sampleInput (by decide) (by decide) 1 (by decide)).2.1 (by decide),
    (indirect_formula sampleInput (by decide) (by decide) 0 (by decide)).2.2.1 (by decide),
    (indirect_formula sampleInput (by decide) (by decide) 0 (by decide)).1⟩

/-- C3: for every valid input and year `y`,
mtdc[y] = tdc[y] − gradFees[y] − gradInsurance[y] − subaward[y] with the
year-`y` inflated fees and insurance; equivalently tdc[y] − mtdc[y] equals
inflated fees + inflated insurance + that year's subaward entry. -/
theorem mtdc_exclusion (b : BudgetInput) (h1 : 1 ≤ b.number_years)
    (h2 : b.subaward.length = b.number_years) (y : ℕ) (hy : y < b.number_years) :
    (calculate_budget b).mtdc.getD y 0 =
        (calculate_budget b).tdc.getD y 0 - (loopState b y).grad_fees
          - (loopState b y).grad_ins - b.subaward.getD y 0
      ∧ (calculate_budget b).tdc.getD y 0 - (calculate_budget b).mtdc.getD y 0 =
          (loopState b y).grad_fees + (loopState b y).grad_ins + b.subaward.getD y 0 := by
  have ht : (calculate_budget b).tdc.getD y 0 = tdcAt b y := by
    simp only [calculate_budget]
    rw [getD_map_range _ _ hy]
  have hm : (calculate_budget b).mtdc.getD y 0 = mtdcAt b y := by
    simp only [calculate_budget]
    rw [getD_map_range _ _ hy]
  constructor
  · rw [ht, hm]
    rfl
  · rw [ht, hm, mtdcAt, subAt]
    ring

theorem mtdc_exclusion_witness :
    1 ≤ sampleInput.number_years
      ∧ sampleInput.subaward.length = sampleInput.number_years
      ∧ ((calculate_budget sampleInput).mtdc.getD 0 0 =
            (calculate_budget sampleInput).tdc.getD 0 0 - (loopState sampleInput 0).grad_fees
              - (loopState sampleInput 0).grad_ins - sampleInput.subaward.getD 0 0
          ∧ (calculate_budget sampleInput).tdc.getD 0 0
                - (calculate_budget sampleInput).mtdc.getD 0 0 =
              (loopState sampleInput 0).grad_fees + (loopState sampleInput 0).grad_ins
                + sampleInput.subaward.getD 0 0) :=
  ⟨by decide, by decide,
    mtdc_exclusion sampleInput (by decide) (by decide) 0 (by decide)⟩

/-- C4: for every valid input with inflation rate `r` and every `k` below
numberYears, each inflatable quantity used in year `k+1` equals its year-1
input value times `(1+r)^k`; travel and pubCosts are the input constants in
every year, postdocHealth enters each year's postdoc total unchanged, and
the subaward value is taken directly from the input sequence; inflation
`r = 0` leaves the loop state at its initial value in every year. -/
theorem inflation_compounding (b : BudgetInput) (h1 : 1 ≤ b.number_years)
    (h2 : b.subaward.length = b.number_years) (k : ℕ) (hk : k < b.number_years) :
    (loopState b k).faculty_salary = b.faculty_salary * (1 + b.inflation) ^ k
      ∧ (loopState b k).grad_salary = b.grad_salary * (1 + b.inflation) ^ k
      ∧ (loopState b k).postdoc_salary = b.postdoc_salary * (1 + b.inflation) ^ k
      ∧ (loopState b k).grad_fees = b.grad_fees * (1 + b.inflation) ^ k
      ∧ (loopState b k).grad_ins = b.grad_ins * (1 + b.inflation) ^ k
      ∧ (loopState b k).undergrad_salary = b.undergrad_salary * (1 + b.inflation) ^ k
      ∧ ((calculate_budget b).details.getD k default).travel = b.travel
      ∧ ((calculate_budget b).details.getD k default).pub_costs = b.pub_costs
      ∧ ((calculate_budget b).details.getD k default).total_postdoc =
          (1 + b.fulltime_fringe) * (loopState b k).postdoc_salary + b.postdoc_health
      ∧ ((calculate_budget b).details.getD k default).subaward = b.subaward.getD k 0
      ∧ (b.inflation = 0 → loopState b k = initState b) := by
  have hd : (calculate_budget b).details.getD k default = detailAt b k := by
    simp only [calculate_budget]
    rw [getD_map_range _ _ hk]
  have hs := loopState_eq b k
  refine ⟨by rw [hs], by rw [hs], by rw [hs], by rw [hs], by rw [hs], by rw [hs],
    by rw [hd]; rfl, by rw [hd]; rfl, by rw [hd]; rfl, by rw [hd]; rfl, ?_⟩
  intro h
  rw [hs]
  simp [h, initState]

theorem inflation_compounding_witness :
    1 ≤ sampleInput.number_years
      ∧ sampleInput.subaward.length = sampleInput.number_years
      ∧ (1 : ℕ) < sampleInput.number_years
      ∧ (loopState sampleInput 1).grad_salary =
          sampleInput.grad_salary * (1 + sampleInput.inflation) ^ 1
      ∧ ((calculate_budget sampleInput).details.getD 1 default).travel = sampleInput.travel
      ∧ zeroInflInput.inflation = 0
      ∧ loopState zeroInflInput 1 = initState zeroInflInput :=
  ⟨by decide, by decide, by decide,
    (inflation_compounding sampleInput (by decide) (by decide) 1 (by decide)).2.1,
    (inflation_compounding sampleInput (by decide) (by decide) 1
        (by decide)).2.2.2.2.2.2.1,
    by decide,
    (inflation_compounding zeroInflInput (by decide) (by decide) 1
        (by decide)).2.2.2.2.2.2.2.2.2.2 (by decide)⟩

/-- C5: for every valid input and year `y`, the yearly grand total satisfies
yearly[y] = tdc[y] + indirect[y]. -/
theorem yearly_additivity (b : BudgetInput) (h1 : 1 ≤ b.number_years)
    (h2 : b.subaward.length = b.number_years) (y : ℕ) (hy : y < b.number_years) :
    (calculate_budget b).yearly.getD y 0 =
      (calculate_budget b).tdc.getD y 0 + (calculate_budget b).indirect.getD y 0 := by
  simp only [calculate_budget]
  rw [getD_map_range _ _ hy, getD_map_range _ _ hy, getD_map_range _ _ hy]

theorem yearly_additivity_witness :
    1 ≤ sampleInput.number_years
      ∧ sampleInput.subaward.length = sampleInput.number_years
      ∧ (calculate_budget sampleInput).yearly.getD 0 0 =
          (calculate_budget sampleInput).tdc.getD 0 0
            + (calculate_budget sampleInput).indirect.getD 0 0 :=
  ⟨by decide, by decide,
    yearly_additivity sampleInput (by decide) (by decide) 0 (by decide)⟩

/-- C6: for every input with numberYears ≥ 1 and a subaward list of matching
length, every output sequence of `calculate_budget` has length exactly
numberYears. -/
theorem output_lengths (b : BudgetInput) (h1 : 1 ≤ b.number_years)
    (h2 : b.subaward.length = b.number_years) :
    (calculate_budget b).tdc.length = b.number_years
      ∧ (calculate_budget b).mtdc.length = b.number_years
      ∧ (calculate_budget b).indirect.length = b.number_years
      ∧ (calculate_budget b).yearly.length = b.number_years
      ∧ (calculate_budget b).details.length = b.number_years := by
  refine ⟨?_, ?_, ?_, ?_, ?_⟩ <;> simp [calculate_budget]

theorem output_lengths_witness :
    1 ≤ oneYearInput.number_years
      ∧ oneYearInput.subaward.length = oneYearInput.number_years
      ∧ (calculate_budget oneYearInput).tdc.length = 1
      ∧ (calculate_budget oneYearInput).details.length = 1 :=
  ⟨by decide, by decide,
    (output_lengths oneYearInput (by decide) (by decide)).1,
    (output_lengths oneYearInput (by decide) (by decide)).2.2.2.2⟩

/-- The total fringe of a year's detail record decomposes as the three named
fringe fields plus `fringe_rate` times the undergraduate salary. -/
theorem detail_total_fringe (b : BudgetInput) (y : ℕ) :
    (detailAt b y).total_fringe =
      (detailAt b y).faculty_fringe + (detailAt b y).grad_fringe
        + (detailAt b y).postdoc_fringe
        + b.fringe_rate * (detailAt b y).undergrad_salary := by
  show fringeAt b y =
    (loopState b y).faculty_salary * b.fringe_rate
      + GRAD_SUMMER_FRACTION * (loopState b y).grad_salary * b.fringe_rate
      + (loopState b y).postdoc_salary * b.fulltime_fringe
      + b.fringe_rate * (loopState b y).undergrad_salary
  rw [fringeAt]
  ring

/-- C9 (amended): every YearDetail satisfies total_fringe = faculty_fringe +
grad_fringe + postdoc_fringe + fringeRate * undergrad_salary; there is no
separate undergraduate-fringe field, so when undergrad_salary > 0 AND
fringeRate > 0 the total_fringe entry strictly exceeds the sum of the three
named fringe fields. -/
theorem total_fringe_decomposition (b : BudgetInput) (h1 : 1 ≤ b.number_years)
    (h2 : b.subaward.length = b.number_years) (y : ℕ) (hy : y < b.number_years) :
    ((calculate_budget b).details.getD y default).total_fringe =
        ((calculate_budget b).details.getD y default).faculty_fringe
          + ((calculate_budget b).details.getD y default).grad_fringe
          + ((calculate_budget b).details.getD y default).postdoc_fringe
          + b.fringe_rate * ((calculate_budget b).details.getD y default).undergrad_salary
      ∧ (0 < ((calculate_budget b).details.getD y default).undergrad_salary →
          0 < b.fringe_rate →
          ((calculate_budget b).details.getD y default).faculty_fringe
              + ((calculate_budget b).details.getD y default).grad_fringe
              + ((calculate_budget b).details.getD y default).postdoc_fringe
            < ((calculate_budget b).details.getD y default).total_fringe) := by
  have hd : (calculate_budget b).details.getD y default = detailAt b y := by
    simp only [calculate_budget]
    rw [getD_map_range _ _ hy]
  rw [hd]
  refine ⟨detail_total_fringe b y, ?_⟩
  intro hu hf
  rw [detail_total_fringe b y]
  have hpos : 0 < b.fringe_rate * (detailAt b y).undergrad_salary := mul_pos hf hu
  linarith

theorem total_fringe_decomposition_witness :
    1 ≤ sampleInput.number_years
      ∧ sampleInput.subaward.length = sampleInput.number_years
      ∧ 0 < ((calculate_budget sampleInput).details.getD 0 default).undergrad_salary
      ∧ 0 < sampleInput.fringe_rate
      ∧ ((calculate_budget sampleInput).details.getD 0 default).faculty_fringe
            + ((calculate_budget sampleInput).details.getD 0 default).grad_fringe
            + ((calculate_budget sampleInput).details.getD 0 default).postdoc_fringe
          < ((calculate_budget sampleInput).details.getD 0 default).total_fringe :=
  ⟨by decide, by decide, by decide, by simp [sampleInput],
    (total_fringe_decomposition sampleInput (by decide) (by decide) 0
        (by decide)).2 (by decide) (by simp [sampleInput])⟩

/-- The sample input with a zero seasonal fringe rate: a valid input on which
a positive undergraduate salary contributes nothing to the fringe total. -/
def noFringeInput : BudgetInput :=
  { sampleInput with fringe_rate := 0 }

/-- C9 counterexample: on the valid input `noFringeInput` (fringe rate 0,
undergraduate salary 10 > 0) the year-1 detail has total_fringe equal to, not
strictly above, faculty_fringe + grad_fringe + postdoc_fringe, refuting the
unconditional "strictly exceeds" clause of the claim. -/
theorem total_fringe_counterexample :
    0 < ((calculate_budget noFringeInput).details.getD 0 default).undergrad_salary
      ∧ ¬ (((calculate_budget noFringeInput).details.getD 0 default).faculty_fringe
            + ((calculate_budget noFringeInput).details.getD 0 default).grad_fringe
            + ((calculate_budget noFringeInput).details.getD 0 default).postdoc_fringe
          < ((calculate_budget noFringeInput).details.getD 0 default).total_fringe) := by
  have hd : (calculate_budget noFringeInput).details.getD 0 default =
      detailAt noFringeInput 0 := by
    simp only [calculate_budget]
    rw [getD_map_range _ _ (by decide : 0 < noFringeInput.number_years)]
  rw [hd]
  constructor
  · decide
  · rw [detail_total_fringe]
    have hz : noFringeInput.fringe_rate = 0 := rfl
    rw [hz, zero_mul, add_zero]
    exact lt_irrefl _

/-!
The parameter-file reader `load_parameters` (source lines 17-29).  A file is
a list of lines, a line a list of characters; the dict is embedded as a
lookup function updated by assignment.
-/

/-- The whitespace characters removed by Python's `str.strip()`. -/
def isPySpace (c : Char) : Bool :=
  c == ' ' || c == '\t' || c == '\n' || c == '\r' || c == '\x0b' || c == '\x0c'

/-- Python's `str.strip()`: drop leading and trailing whitespace. -/
def pyStrip (cs : List Char) : List Char :=
  ((cs.dropWhile isPySpace).reverse.dropWhile isPySpace).reverse

/-- Python's `str.partition("=")` restricted to what the source uses: the
text before the first `'='` and the text after it, or `none` when the line
has no `'='` (in which case the source hits `continue`). -/
def splitFirstEq : List Char → Option (List Char × List Char)
  | [] => none
  | c :: rest =>
    if c = '=' then some ([], rest)
    else
      match splitFirstEq rest with
      | none => none
      | some (a, v) => some (c :: a, v)

/-- The processing of one line in the `for line in f` loop (source lines
21-28): strip, skip blanks and `#` comments, split at the first `'='`, skip
when there is none, else return the stripped key and value. -/
def lineKV (line : List Char) : Option (List Char × List Char) :=
  match pyStrip line with
  | [] => none
  | c :: l =>
    if c = '#' then none
    else
      match splitFirstEq (c :: l) with
      | none => none
      | some (k, v) => some (pyStrip k, pyStrip v)

/-- The empty dict `params = {}` (source line 19). -/
def emptyParams : List Char → Option (List Char) :=
  fun _ => none

/-- The dict assignment `params[key] = value` (source line 28), embedded as a
pointwise update of the lookup function. -/
def dictInsert (k v : List Char) (m : List Char → Option (List Char)) :
    List Char → Option (List Char) :=
  fun q => if q = k then some v else m q

/-- One iteration of the loop body of `load_parameters` acting on the dict. -/
def processLine (m : List Char → Option (List Char)) (line : List Char) :
    List Char → Option (List Char) :=
  match lineKV line with
  | none => m
  | some kv => dictInsert kv.1 kv.2 m

/-- Function `load_parameters` (source lines 17-29): fold the per-line processing over
the file's lines, starting from the empty dict. -/
def load_parameters (lines : List (List Char)) : List Char → Option (List Char) :=
  lines.foldl processLine emptyParams

/-- Splitting returns `none` exactly on lines without an equals sign. -/
theorem splitFirstEq_eq_none (cs : List Char) :
    splitFirstEq cs = none ↔ '=' ∉ cs := by
  induction cs with
  | nil => simp [splitFirstEq]
  | cons c rest ih =>
    by_cases hc : c = '='
    · subst hc
      simp [splitFirstEq]
    · rw [splitFirstEq, if_neg hc]
      cases h : splitFirstEq rest with
      | none =>
        rw [h] at ih
        have hr : '=' ∉ rest := ih.mp rfl
        simp [List.mem_cons, hr, Ne.symm hc]
      | some p =>
        rw [h] at ih
        have hr : '=' ∈ rest := by
          by_contra hn
          exact Option.noConfusion (ih.mpr hn)
        simp [List.mem_cons, hr]

/-- Splitting cuts the line at its first equals sign. -/
theorem splitFirstEq_append (a v : List Char) (ha : '=' ∉ a) :
    splitFirstEq (a ++ '=' :: v) = some (a, v) := by
  induction a with
  | nil => simp [splitFirstEq]
  | cons c rest ih =>
    have hc : c ≠ '=' := fun h => ha (by simp [h])
    have ha' : '=' ∉ rest := fun h => ha (List.mem_cons_of_mem c h)
    rw [List.cons_append, splitFirstEq, if_neg hc, ih ha']

/-- C7: `load_parameters` folds the per-line processing over the lines from
the empty mapping; a line that is blank after stripping, or whose stripped
form begins with `'#'`, or that contains no `'='`, leaves the mapping
unchanged; any other line is split at its first `'='` and stored as a
stripped-key/stripped-value pair. -/
theorem load_parameters_spec (lines : List (List Char)) (line : List Char)
    (m : List Char → Option (List Char)) :
    load_parameters lines = lines.foldl processLine emptyParams
      ∧ ((pyStrip line = [] ∨ (pyStrip line).head? = some '#') →
          processLine m line = m)
      ∧ ('=' ∉ pyStrip line → processLine m line = m)
      ∧ (∀ a v, pyStrip line = a ++ '=' :: v → '=' ∉ a →
          (pyStrip line).head? ≠ some '#' →
          processLine m line = dictInsert (pyStrip a) (pyStrip v) m) := by
  refine ⟨rfl, ?_, ?_, ?_⟩
  · intro h
    rcases h with h | h
    · simp [processLine, lineKV, h]
    · rw [processLine, lineKV]
      cases hp : pyStrip line with
      | nil => rfl
      | cons c t =>
        rw [hp] at h
        simp only [List.head?_cons, Option.some.injEq] at h
        simp [h]
  · intro h
    rw [processLine, lineKV]
    cases hp : pyStrip line with
    | nil => rfl
    | cons c t =>
      rw [hp] at h
      by_cases hc : c = '#'
      · simp [hc]
      · simp [hc, (splitFirstEq_eq_none _).mpr h]
  · intro a v hav hna hh
    rw [processLine, lineKV]
    cases hp : pyStrip line with
    | nil =>
      rw [hp] at hav
      exact absurd hav (by simp)
    | cons c t =>
      have hc : c ≠ '#' := by
        rw [hp] at hh
        simpa using hh
      have hs : splitFirstEq (c :: t) = some (a, v) := by
        rw [← hp, hav]
        exact splitFirstEq_append a v hna
      simp [hc, hs]

theorem load_parameters_spec_witness :
    pyStrip ([' ', 'k', '=', 'v', ' '] : List Char) = ['k'] ++ '=' :: ['v']
      ∧ processLine emptyParams [' ', 'k', '=', 'v', ' ']
          = dictInsert (pyStrip ['k']) (pyStrip ['v']) emptyParams
      ∧ processLine emptyParams ['#', 'a', '=', 'b'] = emptyParams
      ∧ processLine emptyParams ['n', 'o'] = emptyParams :=
  ⟨by decide,
    (load_parameters_spec [] [' ', 'k', '=', 'v', ' '] emptyParams).2.2.2
      ['k'] ['v'] (by decide) (by decide) (by decide),
    (load_parameters_spec [] ['#', 'a', '=', 'b'] emptyParams).2.1
      (Or.inr (by decide)),
    (load_parameters_spec [] ['n', 'o'] emptyParams).2.2.1 (by decide)⟩

/-- The value assigned to key `k` by the last line of `lines` that parses to
an entry for `k`, or `none` when no line does. -/
def lastVal (k : List Char) : List (List Char) → Option (List Char)
  | [] => none
  | line :: rest =>
    match lastVal k rest with
    | some v => some v
    | none =>
      match lineKV line with
      | some kv => if kv.1 = k then some kv.2 else none
      | none => none

/-- Folding the line processing over `lines` leaves key `k` at the value of
the last line that sets it, falling back to the starting dict. -/
theorem foldl_processLine_apply (k : List Char) (lines : List (List Char)) :
    ∀ m : List Char → Option (List Char),
      lines.foldl processLine m k =
        match lastVal k lines with
        | some v => some v
        | none => m k := by
  induction lines with
  | nil =>
    intro m
    rfl
  | cons line rest ih =>
    intro m
    rw [List.foldl_cons, ih (processLine m line), lastVal]
    cases h : lastVal k rest with
    | some v => rfl
    | none =>
      cases hl : lineKV line with
      | none => simp [processLine, hl]
      | some kv =>
        simp only [processLine, hl, dictInsert]
        by_cases hk : k = kv.1
        · simp [hk]
        · have hk' : kv.1 ≠ k := Ne.symm hk
          simp [hk, hk']

/-- C10: when the same stripped key appears on several `key=value` lines,
`load_parameters` returns the value from the last such line; earlier
occurrences are overwritten. -/
theorem load_parameters_last_wins (lines : List (List Char)) (k v : List Char)
    (h : lastVal k lines = some v) :
    load_parameters lines k = some v := by
  rw [load_parameters, foldl_processLine_apply k lines emptyParams, h]

theorem load_parameters_last_wins_witness :
    lastVal ['a'] [['a', '=', '1'], ['b', '=', '9'], ['a', ' ', '=', '2']]
        = some ['2']
      ∧ load_parameters [['a', '=', '1'], ['b', '=', '9'], ['a', ' ', '=', '2']] ['a']
          = some ['2'] :=
  ⟨by decide, load_parameters_last_wins _ _ _ (by decide)⟩

/-!
The currency formatter `dollar` (source lines 32-34): Python's
`f"${amount:,.2f}"`.  The amount is embedded as an exact rational; the
formatter emits `$`, the sign, the comma-grouped integer part of the
magnitude, and exactly two cent digits obtained by rounding `100 * amount`
to the nearest integer.  Python renders the IEEE-754 double; none of the
modeled inputs lies at a rounding tie, so the tie-breaking direction is not
observable on them.
-/

/-- Comma grouping on a reversed digit string: `n` counts the characters
still to copy before the next separator is due; a separator is emitted only
when more characters follow. -/
def commaRevAux : ℕ → List Char → List Char
  | _, [] => []
  | 0, c :: rest => ',' :: c :: commaRevAux 2 rest
  | n + 1, c :: rest => c :: commaRevAux n rest

/-- Insert a comma after every third character of a reversed digit string. -/
def commaRev (l : List Char) : List Char :=
  commaRevAux 3 l

/-- Two-digit rendering of the cent value `n < 100`. -/
def padCents (n : ℕ) : List Char :=
  if n < 10 then '0' :: Nat.toDigits 10 n else Nat.toDigits 10 n

/-- Function `dollar` (source lines 32-34), the comma-and-two-decimals format
string applied over exact rationals. -/
def dollar (q : ℚ) : String :=
  String.mk ('$' :: (if q < 0 then ['-'] else [])
    ++ (commaRev (Nat.toDigits 10 ((round (100 * q)).natAbs / 100)).reverse).reverse
    ++ '.' :: padCents ((round (100 * q)).natAbs % 100))

/-- C8: the currency formatter renders 1234.5 as "$1,234.50", 0 as "$0.00",
−500 as "$-500.00", and 99.999 as "$100.00": a leading `$`, thousands
separators, exactly two decimal places, rounding to the nearest cent. -/
theorem dollar_formatting :
    dollar (1234.5 : ℚ) = "$1,234.50"
      ∧ dollar 0 = "$0.00"
      ∧ dollar (-500) = "$-500.00"
      ∧ dollar (99.999 : ℚ) = "$100.00" := by
  have h1 : round ((100 : ℚ) * 1234.5) = 123450 := by
    rw [round_eq, Int.floor_eq_iff]
    norm_num
  have h2 : round ((100 : ℚ) * 0) = 0 := by
    rw [round_eq, Int.floor_eq_iff]
    norm_num
  have h3 : round ((100 : ℚ) * (-500)) = -50000 := by
    rw [round_eq, Int.floor_eq_iff]
    norm_num
  have h4 : round ((100 : ℚ) * 99.999) = 10000 := by
    rw [round_eq, Int.floor_eq_iff]
    norm_num
  refine ⟨?_, ?_, ?_, ?_⟩
  · rw [dollar, if_neg (by norm_num : ¬ (1234.5 : ℚ) < 0), h1]
    rfl
  · rw [dollar, if_neg (by norm_num : ¬ (0 : ℚ) < 0), h2]
    rfl
  · rw [dollar, if_pos (by norm_num : (-500 : ℚ) < 0), h3]
    rfl
  · rw [dollar, if_neg (by norm_num : ¬ (99.999 : ℚ) < 0), h4]
    rfl

end Budget
